import Mathlib

/-!
# Entropy-GUID: a shallow embedding of `entropy_guid.c`

The C function `get_uuid` reads six probes (clock, heap address, timing
jitter, directory entry count, pseudo-random draw, static tag), formats each
into a bounded stack buffer with `snprintf`, concatenates the six buffers into
`sall[256]`, hands `sall` to `crypt` and copies the digest, minus its first six
bytes, into the caller's `tag_unique_id`.

Modelling choices.
* A C string is the list of its bytes before the terminating NUL.
* What the operating system answers during one call is an explicit value of
  type `Env`; the libc routines whose results are not computed here (`rand`,
  `crypt`, the floating point `%f` conversion) are fields of `Libc`.
* `int` is 32 bits wide and wraps, `uint64_t` arithmetic is modulo `2 ^ 64`.
* The calls made to the outside world are recorded, in order, in a trace.
* The two `printf` lines of the debug build (`#ifndef NDEBUG`) only write to
  standard output and are left out.
-/

namespace EntropyGUID

/-- A C string: the bytes stored before the terminating NUL. -/
abbrev CString := List Char

/-- The `struct timeval` of `<sys/time.h>`. -/
structure Timeval where
  tv_sec : Int
  tv_usec : Int
deriving DecidableEq, Repr

/-- A directory entry handed out by `readdir`; only its existence is used. -/
structure Dirent where
  d_name : CString
deriving DecidableEq, Repr

/-- Calls that leave `get_uuid`, in the order the source makes them. -/
inductive Event where
  | gettimeofday
  | malloc
  | exit (status : Int)
  | free (ptr : Nat)
  | rdtsc
  | usleep (usec : Nat)
  | opendir
  | readdir
  | closedir
  | time
  | srand (seed : Nat)
  | rand
  | crypt (key salt : CString)
deriving DecidableEq, Repr

/-- The answers of the operating system during one call of `get_uuid`. -/
structure Env where
  /-- Indeterminate content of the local `tv1` when the function is entered. -/
  tv1_stack : Timeval
  /-- Indeterminate content of the local `tv2` when the function is entered. -/
  tv2_stack : Timeval
  /-- First `gettimeofday(&tv1, NULL)`: `none` when the call fails
  (it returns -1 and leaves the struct alone). -/
  clock1 : Option Timeval
  /-- Pointer returned by `malloc(sizeof(char))`; `0` is `NULL`. -/
  malloc : Nat
  /-- First `rdtsc()` reading. -/
  tsc1 : Nat
  /-- Second `gettimeofday(&tv1, NULL)`, before the sleep. -/
  clock2 : Option Timeval
  /-- The `gettimeofday(&tv2, NULL)` after the sleep. -/
  clock3 : Option Timeval
  /-- Second `rdtsc()` reading. -/
  tsc2 : Nat
  /-- Outcome of `opendir(".")`: `none` for `NULL`, otherwise the entries that
  successive `readdir` calls return before the first `NULL`. -/
  dir : Option (List Dirent)
  /-- Value of `time(NULL)`. -/
  time : Int
  /-- What the buffer `crypt` returned holds from offset 6 up to the next NUL
  when the returned string has fewer than six bytes: these bytes lie past its
  terminator and are whatever the buffer held before the call. -/
  crypt_past : CString
deriving DecidableEq, Repr

/-- The libc routines whose results are taken as given. -/
structure Libc where
  /-- Text that `%f` produces for `dtv2 - dtv1`, the two `double`s computed
  from `tv1` and `tv2` (floating point is not interpreted here). -/
  fmt_f_elapsed : Timeval → Timeval → CString
  /-- Value of the first `rand()` after `srand(seed)`. -/
  rand : Nat → Int
  /-- The `crypt(key, salt)` of `<unistd.h>`; `none` is a `NULL` return. -/
  crypt : CString → CString → Option CString

/-- How a call of `get_uuid` ends. -/
inductive Outcome where
  /-- The function returned this value to its caller. -/
  | returned (value : Int)
  /-- The process was terminated by `exit(status)`. -/
  | exited (status : Int)
  /-- The expression `&out[6]` was read although `out` is `NULL`: the C
  standard gives the call no meaning. -/
  | undefined
deriving DecidableEq, Repr

/-- The six buffers `s1` .. `s6` once every probe has run. -/
structure Samples where
  s1 : CString
  s2 : CString
  s3 : CString
  s4 : CString
  s5 : CString
  s6 : CString
deriving DecidableEq, Repr

/-- Everything observable about one call of `get_uuid`. -/
structure Run where
  /-- The outside calls, oldest first. -/
  trace : List Event
  outcome : Outcome
  /-- Content of `*result` when the call ends. -/
  result : CString
  /-- The sample buffers, when all six were filled. -/
  samples : Option Samples
  /-- The buffer `sall`, when it was filled. -/
  sall : Option CString
deriving DecidableEq, Repr

/-! ## Machine integers -/

/-- Value of an `int` after an overflowing operation (two's complement, 32 bits). -/
def wrap_int (i : Int) : Int := (i + 2 ^ 31) % 2 ^ 32 - 2 ^ 31

/-- Conversion to `unsigned int`, as in the call `srand(time(NULL))`. -/
def to_unsigned (i : Int) : Nat := (i % 2 ^ 32).toNat

/-- Subtraction of two `uint64_t` values: `a - b` computed modulo `2 ^ 64`. -/
def sub_u64 (a b : Nat) : Nat := (a % 2 ^ 64 + (2 ^ 64 - b % 2 ^ 64)) % 2 ^ 64

/-! ## Formatting -/

/-- Conversion `%u` / `%lu` / `PRIu64`: decimal digits, no sign. -/
def fmt_u (n : Nat) : CString := Nat.toDigits 10 n

/-- Conversion `%d` / `%ld`: decimal digits, with a leading `-` when negative. -/
def fmt_d (i : Int) : CString :=
  match i with
  | Int.ofNat n => fmt_u n
  | Int.negSucc n => '-' :: fmt_u (n + 1)

/-- Conversion `%p` as glibc prints it: `0x` and lower-case hexadecimal digits,
`(nil)` for the null pointer. -/
def fmt_p (ptr : Nat) : CString :=
  if ptr = 0 then "(nil)".toList else "0x".toList ++ Nat.toDigits 16 ptr

/-- The call `snprintf(buf, size, fmt, ...)`: `buf` receives the formatted
text cut to `size - 1` bytes, followed by the terminator. -/
def snprintf (size : Nat) (formatted : CString) : CString :=
  formatted.take (size - 1)

/-! ## The probes -/

/-- The call `gettimeofday(&tv, NULL)`: on success the reading is stored, on
failure `tv` keeps what it held. -/
def gettimeofday (reading : Option Timeval) (tv : Timeval) : Timeval :=
  match reading with
  | some t => t
  | none => tv

/-- The loop `for (count = 0; readdir(dir); count++);` started at `count`. -/
def readdir_loop (stream : List Dirent) (count : Int) : Int :=
  match stream with
  | [] => count
  | _ :: rest => readdir_loop rest (wrap_int (count + 1))

/-- The salt argument of the `crypt` call. -/
def SALT : CString := "$1$xx$789012".toList

/-- The text `snprintf(s6, 64, "%s::%d", "www.bugsense.com", 1)` formats. -/
def static_tag : CString := "www.bugsense.com".toList ++ "::".toList ++ fmt_d 1

/-- The line `snprintf(sall, 256, "%s%s%s%s%s%s", s1, s2, s3, s4, s5, s6)`. -/
def combine (s1 s2 s3 s4 s5 s6 : CString) : CString :=
  snprintf 256 (s1 ++ s2 ++ s3 ++ s4 ++ s5 ++ s6)

/-- The function `get_uuid(tag_unique_id *result)`; `result` is what the
caller's buffer holds before the call. -/
def get_uuid (L : Libc) (env : Env) (result : CString) : Run :=
  -- STEP 1: time since Epoch
  let tv1 := gettimeofday env.clock1 env.tv1_stack
  let s1 := snprintf 64 (fmt_d tv1.tv_sec ++ fmt_d tv1.tv_usec)
  -- STEP 2: an object reference
  let ch := env.malloc
  if ch = 0 then
    { trace := [Event.gettimeofday, Event.malloc, Event.exit 1]
      outcome := Outcome.exited 1
      result := result
      samples := none
      sall := none }
  else
    let s2 := snprintf 128 (fmt_p ch)
    -- STEP 3: sleep for a little time
    let tsc := env.tsc1
    let tv1 := gettimeofday env.clock2 tv1
    let tv2 := gettimeofday env.clock3 env.tv2_stack
    let tsc := sub_u64 env.tsc2 tsc
    let s3 := snprintf 64 (L.fmt_f_elapsed tv1 tv2 ++ ':' :: fmt_u tsc)
    -- STEP 4: a context value
    let count : Int :=
      match env.dir with
      | some stream => readdir_loop stream 0
      | none => 2
    let dir_calls : List Event :=
      match env.dir with
      | some stream =>
        Event.opendir :: List.replicate (stream.length + 1) Event.readdir ++ [Event.closedir]
      | none => [Event.opendir]
    let s4 := snprintf 64 (fmt_d count)
    -- STEP 5: a pseudo-random number
    let seed := to_unsigned env.time
    let s5 := snprintf 64 (fmt_d (L.rand seed))
    -- STEP 6: the complementary step
    let s6 := snprintf 64 static_tag
    -- the output string
    let sall := combine s1 s2 s3 s4 s5 s6
    let trace : List Event :=
      [Event.gettimeofday, Event.malloc, Event.free ch,
       Event.rdtsc, Event.gettimeofday, Event.usleep (256 * 1000),
       Event.gettimeofday, Event.rdtsc] ++ dir_calls ++
      [Event.time, Event.srand seed, Event.rand, Event.crypt sall SALT]
    -- MD5 from the output string, then the result
    match L.crypt sall SALT with
    | some out =>
      -- the string that starts at `&out[6]`: the rest of the digest, or, for a
      -- digest that ends before offset 6, what follows its terminator
      let out6 := if 6 ≤ out.length then out.drop 6 else env.crypt_past
      { trace := trace
        outcome := Outcome.returned 1
        result := snprintf 256 out6
        samples := some ⟨s1, s2, s3, s4, s5, s6⟩
        sall := some sall }
    | none =>
      { trace := trace
        outcome := Outcome.undefined
        result := result
        samples := some ⟨s1, s2, s3, s4, s5, s6⟩
        sall := some sall }

/-- The six sample buffers written out as functions of the environment: the
values `get_uuid` stores in `s1` .. `s6` when the allocation succeeds
(`get_uuid_samples` below). -/
def probe_samples (L : Libc) (env : Env) : Samples where
  s1 := snprintf 64 (fmt_d (gettimeofday env.clock1 env.tv1_stack).tv_sec
          ++ fmt_d (gettimeofday env.clock1 env.tv1_stack).tv_usec)
  s2 := snprintf 128 (fmt_p env.malloc)
  s3 := snprintf 64 (L.fmt_f_elapsed
          (gettimeofday env.clock2 (gettimeofday env.clock1 env.tv1_stack))
          (gettimeofday env.clock3 env.tv2_stack) ++ ':' :: fmt_u (sub_u64 env.tsc2 env.tsc1))
  s4 := snprintf 64 (fmt_d (match env.dir with
          | some stream => readdir_loop stream 0
          | none => 2))
  s5 := snprintf 64 (fmt_d (L.rand (to_unsigned env.time)))
  s6 := snprintf 64 static_tag

/-! ## Concrete values used to exercise the model -/

/-- A stand-in digest: the scheme and salt header followed by the key read
backwards. Only its shape matters where it is used. -/
def demo_crypt (key _salt : CString) : Option CString :=
  some ("$1$xx$".toList ++ key.reverse)

/-- A libc with fixed answers. -/
def demo_libc : Libc where
  fmt_f_elapsed := fun _ _ => "256.123047".toList
  rand := fun seed => (seed % 1000 : Nat)
  crypt := demo_crypt

/-- A call made on 2012-05-11 in a directory with three entries. -/
def demo_env : Env where
  tv1_stack := ⟨0, 0⟩
  tv2_stack := ⟨0, 0⟩
  clock1 := some ⟨1336734000, 123456⟩
  malloc := 0x602010
  tsc1 := 1000
  clock2 := some ⟨1336734000, 123460⟩
  clock3 := some ⟨1336734000, 379583⟩
  tsc2 := 700001000
  dir := some [⟨".".toList⟩, ⟨"..".toList⟩, ⟨"entropy_guid.c".toList⟩]
  time := 1336734000
  crypt_past := []

/-- The demo call with a clock whose first read fails. -/
def demo_env_clock_failure : Env :=
  { demo_env with clock1 := none }

/-- The demo call with a failing allocation. -/
def demo_env_alloc_failure : Env :=
  { demo_env with malloc := 0 }

/-- A later call within the same second as `demo_env`: other microseconds,
other heap address, other counter readings, one more directory entry. -/
def demo_env_same_second : Env where
  tv1_stack := ⟨0, 0⟩
  tv2_stack := ⟨0, 0⟩
  clock1 := some ⟨1336734000, 500001⟩
  malloc := 0x1c3f010
  tsc1 := 5
  clock2 := some ⟨1336734000, 500009⟩
  clock3 := some ⟨1336734000, 756200⟩
  tsc2 := 2
  dir := some [⟨".".toList⟩, ⟨"..".toList⟩, ⟨"entropy_guid.c".toList⟩, ⟨"a.out".toList⟩]
  time := 1336734000
  crypt_past := []

/-- A libc whose `crypt` refuses the MD5 scheme with the two-byte failure
token `*0`, as libxcrypt does when the scheme is disabled. -/
def failing_crypt_libc : Libc :=
  { demo_libc with crypt := fun _ _ => some "*0".toList }

/-- The demo call, when an earlier `crypt` call left `sXyZ` at offset 6 of the
digest buffer. -/
def demo_env_leftover_a : Env :=
  { demo_env with crypt_past := "sXyZ".toList }

/-- The demo call, when an earlier `crypt` call left `Qr7` at offset 6 of the
digest buffer. -/
def demo_env_leftover_b : Env :=
  { demo_env with crypt_past := "Qr7".toList }

/-- A call at 00:00:01.000023 on 1970-01-01. -/
def demo_env_epoch_a : Env :=
  { demo_env with clock1 := some ⟨1, 23⟩ }

/-- A call at 00:00:12.000003 on 1970-01-01. -/
def demo_env_epoch_b : Env :=
  { demo_env with clock1 := some ⟨12, 3⟩ }

/-! ## Auxiliary facts about `snprintf` and the run record -/

theorem snprintf_length_le (size : Nat) (t : CString) :
    (snprintf size t).length ≤ size - 1 := by
  simp [snprintf, List.length_take]

theorem snprintf_length_le_self (size : Nat) (t : CString) :
    (snprintf size t).length ≤ t.length := by
  simp [snprintf, List.length_take]

theorem snprintf_of_fits (size : Nat) (t : CString) (h : t.length ≤ size - 1) :
    snprintf size t = t := by
  simp [snprintf, List.take_of_length_le h]

theorem get_uuid_samples (L : Libc) (env : Env) (result : CString) :
    (get_uuid L env result).samples
      = if env.malloc = 0 then none else some (probe_samples L env) := by
  unfold get_uuid probe_samples
  by_cases h : env.malloc = 0
  · simp [h]
  · simp only [h, if_false]
    split <;> rfl

theorem get_uuid_sall (L : Libc) (env : Env) (result : CString) :
    (get_uuid L env result).sall
      = (get_uuid L env result).samples.map
          (fun s => combine s.s1 s.s2 s.s3 s.s4 s.s5 s.s6) := by
  unfold get_uuid
  by_cases h : env.malloc = 0
  · simp [h]
  · simp only [h, if_false]
    split <;> rfl

/-- Once `sall` is filled, the end of the call is decided by the digest. -/
theorem get_uuid_digest (L : Libc) (env : Env) (result sall : CString)
    (h : (get_uuid L env result).sall = some sall) :
    ((get_uuid L env result).outcome, (get_uuid L env result).result)
      = match L.crypt sall SALT with
        | some out =>
          (Outcome.returned 1,
            snprintf 256 (if 6 ≤ out.length then out.drop 6 else env.crypt_past))
        | none => (Outcome.undefined, result) := by
  unfold get_uuid at h ⊢
  by_cases h0 : env.malloc = 0
  · simp [h0] at h
  · simp only [h0, if_false] at h ⊢
    split at h
    · simp only [Option.some.injEq] at h
      subst h
      simp [*]
    · simp only [Option.some.injEq] at h
      subst h
      simp [*]

/-! ## Lengths of formatted numbers -/

theorem fmt_u_length_le (n e : Nat) (he : 0 < e) (h : n < 10 ^ e) :
    (fmt_u n).length ≤ e :=
  Nat.toDigitsCore_length 10 (by decide) (n + 1) n e h he

theorem fmt_d_length_le (i : Int) (e : Nat) (he : 0 < e)
    (hlo : -(10 : Int) ^ e < i) (hhi : i < (10 : Int) ^ e) :
    (fmt_d i).length ≤ e + 1 := by
  cases i with
  | ofNat n =>
    have hn : n < 10 ^ e := by
      have : ((n : Nat) : Int) < ((10 ^ e : Nat) : Int) := by
        simpa using hhi
      exact_mod_cast this
    have := fmt_u_length_le n e he hn
    simp only [fmt_d]
    omega
  | negSucc n =>
    have hn : n + 1 < 10 ^ e := by
      have : ((n + 1 : Nat) : Int) < ((10 ^ e : Nat) : Int) := by
        rw [Int.negSucc_eq] at hlo
        push_cast
        linarith
      exact_mod_cast this
    have := fmt_u_length_le (n + 1) e he hn
    simp only [fmt_d, List.length_cons]
    omega

theorem fmt_p_length_le (ptr : Nat) (h : ptr < 2 ^ 64) : (fmt_p ptr).length ≤ 18 := by
  unfold fmt_p
  split
  · decide
  · have : (Nat.toDigits 16 ptr).length ≤ 16 :=
      Nat.toDigitsCore_length 16 (by decide) (ptr + 1) ptr 16 (by norm_num at h ⊢; omega) (by decide)
    simp only [List.length_append]
    have h2 : "0x".toList.length = 2 := by decide
    omega

theorem readdir_loop_eq (stream : List Dirent) (count : Int) (h0 : 0 ≤ count)
    (h : count + stream.length < 2 ^ 31) :
    readdir_loop stream count = count + stream.length := by
  induction stream generalizing count with
  | nil => simp [readdir_loop]
  | cons d rest ih =>
    simp only [List.length_cons, Nat.cast_add, Nat.cast_one] at h
    have hw : wrap_int (count + 1) = count + 1 := by
      unfold wrap_int
      omega
    rw [readdir_loop, hw, ih (count + 1) (by omega) (by omega)]
    simp only [List.length_cons, Nat.cast_add, Nat.cast_one]
    omega

theorem readdir_loop_range (stream : List Dirent) (count : Int)
    (h : -(2 : Int) ^ 31 ≤ count ∧ count < 2 ^ 31) :
    -(2 : Int) ^ 31 ≤ readdir_loop stream count ∧ readdir_loop stream count < 2 ^ 31 := by
  induction stream generalizing count with
  | nil => simpa [readdir_loop] using h
  | cons d rest ih =>
    rw [readdir_loop]
    apply ih
    unfold wrap_int
    omega

theorem demo_crypt_wellformed (key : CString) :
    ∃ out, demo_libc.crypt key SALT = some out ∧ 6 ≤ out.length :=
  ⟨"$1$xx$".toList ++ key.reverse, rfl, by simp⟩

/-! ## The combiner -/

/-- C1: for every six sample strings the composite record built by the
`snprintf` into `sall[256]` is the first `min 255 n` bytes of their
concatenation in the order s1 .. s6, `n` being its length: the whole
concatenation when `n ≤ 255`, a 255-byte initial segment otherwise. The
record `get_uuid` hands to the digest is this function of its six buffers, and
it exists whenever the buffers do. -/
theorem composite_record_is_cut_concatenation (L : Libc) (env : Env) (result : CString)
    (s1 s2 s3 s4 s5 s6 : CString) :
    combine s1 s2 s3 s4 s5 s6
        = (s1 ++ s2 ++ s3 ++ s4 ++ s5 ++ s6).take
            (min 255 (s1 ++ s2 ++ s3 ++ s4 ++ s5 ++ s6).length)
      ∧ combine s1 s2 s3 s4 s5 s6 <+: s1 ++ s2 ++ s3 ++ s4 ++ s5 ++ s6
      ∧ (if (s1 ++ s2 ++ s3 ++ s4 ++ s5 ++ s6).length ≤ 255
          then combine s1 s2 s3 s4 s5 s6 = s1 ++ s2 ++ s3 ++ s4 ++ s5 ++ s6
          else (combine s1 s2 s3 s4 s5 s6).length = 255)
      ∧ (get_uuid L env result).sall
          = (get_uuid L env result).samples.map
              (fun s => combine s.s1 s.s2 s.s3 s.s4 s.s5 s.s6) := by
  refine ⟨?_, ?_, ?_, get_uuid_sall L env result⟩
  · simp only [combine, snprintf]
    rcases Nat.le_total 255 (s1 ++ s2 ++ s3 ++ s4 ++ s5 ++ s6).length with h | h
    · rw [Nat.min_eq_left h]
    · rw [Nat.min_eq_right h, List.take_length, List.take_of_length_le h]
  · exact List.take_prefix _ _
  · split
    · next h => exact snprintf_of_fits 256 _ h
    · next h =>
      simp only [combine, snprintf, List.length_take]
      omega

/-- C2: when `sall` is the composite record of a call and `crypt` answers
`"$1$xx$"` followed by a payload, the call returns 1 and `*result` holds the
payload cut to 255 bytes: the six header bytes are gone and the identifier is
an initial segment of the payload, at most 255 bytes long. More generally,
whenever a call returns, `*result` has at most 255 bytes and is the string
found at offset 6 of the digest buffer, cut to 255 bytes: the digest without
its first six bytes when it has that many, and otherwise what the buffer
holds past the terminator. -/
theorem identifier_is_stripped_payload (L : Libc) (env : Env) (result sall payload : CString)
    (hs : (get_uuid L env result).sall = some sall)
    (hc : L.crypt sall SALT = some ("$1$xx$".toList ++ payload)) :
    (get_uuid L env result).outcome = Outcome.returned 1
      ∧ (get_uuid L env result).result = payload.take 255
      ∧ (get_uuid L env result).result.length ≤ 255
      ∧ (get_uuid L env result).result <+: payload
      ∧ (∀ (env2 : Env) (r2 : CString) (v : Int),
          (get_uuid L env2 r2).outcome = Outcome.returned v →
            (get_uuid L env2 r2).result.length ≤ 255
              ∧ ∃ key out, (get_uuid L env2 r2).sall = some key
                  ∧ L.crypt key SALT = some out
                  ∧ (get_uuid L env2 r2).result
                      = (if 6 ≤ out.length then out.drop 6 else env2.crypt_past).take 255) := by
  have h := get_uuid_digest L env result sall hs
  rw [hc] at h
  have hlen : 6 ≤ ("$1$xx$".toList ++ payload).length := by simp
  have hdrop : ("$1$xx$".toList ++ payload).drop 6 = payload := by
    simp
  simp only [hlen, if_true, hdrop, Prod.mk.injEq] at h
  obtain ⟨ho, hr⟩ := h
  refine ⟨ho, ?_, ?_, ?_, ?_⟩
  · rw [hr]; rfl
  · rw [hr]; exact snprintf_length_le 256 payload
  · rw [hr]; exact List.take_prefix _ _
  · intro env2 r2 v hv
    cases hsall : (get_uuid L env2 r2).sall with
    | none =>
      rw [get_uuid_sall, get_uuid_samples] at hsall
      by_cases hm : env2.malloc = 0
      · have : (get_uuid L env2 r2).outcome = Outcome.exited 1 := by
          unfold get_uuid
          simp [hm]
        rw [this] at hv
        cases hv
      · simp [hm] at hsall
    | some key =>
      have hd := get_uuid_digest L env2 r2 key hsall
      rw [hv] at hd
      cases hk : L.crypt key SALT with
      | none => simp [hk] at hd
      | some out =>
        rw [hk] at hd
        simp only [Prod.mk.injEq] at hd
        refine ⟨?_, key, out, rfl, hk, hd.2⟩
        rw [hd.2]
        exact snprintf_length_le 256 _

theorem identifier_is_stripped_payload_witness :
    (get_uuid demo_libc demo_env []).outcome = Outcome.returned 1
      ∧ (get_uuid demo_libc demo_env []).result
          = ("1::moc.esnesgub.www03000000007:740321.652010206x06543210004376331".toList).take 255
      ∧ (get_uuid demo_libc demo_env []).result.length ≤ 255
      ∧ (get_uuid demo_libc demo_env []).result
          <+: "1::moc.esnesgub.www03000000007:740321.652010206x06543210004376331".toList :=
  ⟨(identifier_is_stripped_payload demo_libc demo_env []
      "13367340001234560x602010256.123047:70000000030www.bugsense.com::1".toList
      "1::moc.esnesgub.www03000000007:740321.652010206x06543210004376331".toList
      (by decide) (by decide)).1,
   (identifier_is_stripped_payload demo_libc demo_env []
      "13367340001234560x602010256.123047:70000000030www.bugsense.com::1".toList
      "1::moc.esnesgub.www03000000007:740321.652010206x06543210004376331".toList
      (by decide) (by decide)).2.1,
   (identifier_is_stripped_payload demo_libc demo_env []
      "13367340001234560x602010256.123047:70000000030www.bugsense.com::1".toList
      "1::moc.esnesgub.www03000000007:740321.652010206x06543210004376331".toList
      (by decide) (by decide)).2.2.1,
   (identifier_is_stripped_payload demo_libc demo_env []
      "13367340001234560x602010256.123047:70000000030www.bugsense.com::1".toList
      "1::moc.esnesgub.www03000000007:740321.652010206x06543210004376331".toList
      (by decide) (by decide)).2.2.2.1⟩

/-- Outside the well-formed digests: when `crypt` answers the two-byte token
`*0`, the call still returns 1 and `*result` receives what the digest buffer
held at offset 6, so two calls with the same six buffers can store different
identifiers. -/
theorem short_digest_reads_past_terminator :
    (get_uuid failing_crypt_libc demo_env_leftover_a []).samples
        = (get_uuid failing_crypt_libc demo_env_leftover_b []).samples
      ∧ (get_uuid failing_crypt_libc demo_env_leftover_a []).outcome = Outcome.returned 1
      ∧ (get_uuid failing_crypt_libc demo_env_leftover_a []).result = "sXyZ".toList
      ∧ (get_uuid failing_crypt_libc demo_env_leftover_b []).outcome = Outcome.returned 1
      ∧ (get_uuid failing_crypt_libc demo_env_leftover_b []).result = "Qr7".toList := by
  decide

/-! ## The probes -/

/-- C4: the context probe has no failing path. Whenever the allocation of
step 2 succeeds and `crypt` answers a string of at least six bytes for every
key, `get_uuid` returns 1 for every outcome of `opendir(".")`. When the
directory cannot be opened `s4` is `"2"`; when it can, `s4` is the uncut
decimal form of the `int` counter the loop leaves, which is the number `n` of
entries the enumeration returned whenever `n < 2 ^ 31`. -/
theorem context_probe_never_aborts (L : Libc) (env : Env) (result : CString)
    (d : Option (List Dirent))
    (hm : env.malloc ≠ 0)
    (hc : ∀ key, ∃ out, L.crypt key SALT = some out ∧ 6 ≤ out.length) :
    (get_uuid L { env with dir := d } result).outcome = Outcome.returned 1
      ∧ (d = none →
          (get_uuid L { env with dir := d } result).samples.map (fun s => s.s4)
            = some "2".toList)
      ∧ (∀ stream : List Dirent, d = some stream → stream.length < 2 ^ 31 →
          (get_uuid L { env with dir := d } result).samples.map (fun s => s.s4)
            = some (fmt_u stream.length))
      ∧ (∀ stream : List Dirent, d = some stream →
          (get_uuid L { env with dir := d } result).samples.map (fun s => s.s4)
            = some (fmt_d (readdir_loop stream 0))) := by
  have hm2 : ({ env with dir := d } : Env).malloc ≠ 0 := hm
  refine ⟨?_, ?_, ?_, ?_⟩
  · have hs := get_uuid_sall L { env with dir := d } result
    rw [get_uuid_samples, if_neg hm2] at hs
    simp only [Option.map_some'] at hs
    have hd := get_uuid_digest L { env with dir := d } result _ hs
    obtain ⟨out, ho, hl⟩ := hc (combine (probe_samples L { env with dir := d }).s1
      (probe_samples L { env with dir := d }).s2 (probe_samples L { env with dir := d }).s3
      (probe_samples L { env with dir := d }).s4 (probe_samples L { env with dir := d }).s5
      (probe_samples L { env with dir := d }).s6)
    rw [ho] at hd
    simp only [Prod.mk.injEq] at hd
    exact hd.1
  · intro hd
    subst hd
    rw [get_uuid_samples, if_neg hm2]
    simp only [Option.map_some', probe_samples]
    rfl
  · intro stream hd hlen
    subst hd
    rw [get_uuid_samples, if_neg hm2]
    simp only [Option.map_some', probe_samples, Option.some.injEq]
    have hloop : readdir_loop stream 0 = (stream.length : Int) := by
      have := readdir_loop_eq stream 0 (le_refl 0) (by
        have : (stream.length : Int) < 2 ^ 31 := by exact_mod_cast hlen
        omega)
      simpa using this
    rw [hloop]
    have hfmt : fmt_d (stream.length : Int) = fmt_u stream.length := rfl
    rw [hfmt]
    apply snprintf_of_fits
    have := fmt_u_length_le stream.length 10 (by decide) (by
      have : (2 : Nat) ^ 31 < 10 ^ 10 := by norm_num
      omega)
    omega
  · intro stream hd
    subst hd
    rw [get_uuid_samples, if_neg hm2]
    simp only [Option.map_some', probe_samples, Option.some.injEq]
    apply snprintf_of_fits
    have hrange := readdir_loop_range stream 0 (by norm_num)
    have hpow : (2 : Int) ^ 31 < 10 ^ 10 := by norm_num
    have := fmt_d_length_le (readdir_loop stream 0) 10 (by decide) (by omega) (by omega)
    omega

theorem context_probe_never_aborts_witness :
    ((get_uuid demo_libc { demo_env with dir := none } []).outcome = Outcome.returned 1
      ∧ (get_uuid demo_libc { demo_env with dir := none } []).samples.map (fun s => s.s4)
          = some "2".toList)
      ∧ (get_uuid demo_libc
            { demo_env with dir := some [⟨".".toList⟩, ⟨"..".toList⟩] } []).outcome
          = Outcome.returned 1
      ∧ (get_uuid demo_libc
            { demo_env with dir := some [⟨".".toList⟩, ⟨"..".toList⟩] } []).samples.map
              (fun s => s.s4)
          = some (fmt_u 2) :=
  ⟨⟨(context_probe_never_aborts demo_libc demo_env [] none (by decide)
        demo_crypt_wellformed).1,
    (context_probe_never_aborts demo_libc demo_env [] none (by decide)
        demo_crypt_wellformed).2.1 rfl⟩,
   (context_probe_never_aborts demo_libc demo_env []
      (some [⟨".".toList⟩, ⟨"..".toList⟩]) (by decide) demo_crypt_wellformed).1,
   (context_probe_never_aborts demo_libc demo_env []
      (some [⟨".".toList⟩, ⟨"..".toList⟩]) (by decide) demo_crypt_wellformed).2.2.1
        [⟨".".toList⟩, ⟨"..".toList⟩] rfl (by decide)⟩

theorem get_uuid_trace_of_alloc (L : Libc) (env : Env) (result : CString)
    (hm : env.malloc ≠ 0) :
    ∃ rest, (get_uuid L env result).trace
      = [Event.gettimeofday, Event.malloc, Event.free env.malloc, Event.rdtsc] ++ rest
      ∧ Event.srand (to_unsigned env.time) ∈ rest := by
  unfold get_uuid
  simp only [hm, if_false]
  split <;> exact ⟨_, rfl, by simp⟩

/-- C5 (the code departs from it): two different clock readings, both with
microseconds below one million, are formatted by `"%ld%ld"` into the same
sample `"123"`: 1 s + 23 µs and 12 s + 3 µs. -/
theorem clock_samples_collide :
    demo_env_epoch_a.clock1 = some ⟨1, 23⟩
      ∧ demo_env_epoch_b.clock1 = some ⟨12, 3⟩
      ∧ (get_uuid demo_libc demo_env_epoch_a []).samples.map (fun s => s.s1)
          = some "123".toList
      ∧ (get_uuid demo_libc demo_env_epoch_b []).samples.map (fun s => s.s1)
          = some "123".toList := by
  decide

/-- C6 (the code departs from it): no call of `get_uuid` returns 0, and a call
whose first `gettimeofday` fails still returns 1 and stores an identifier,
computed from whatever `tv1` held. -/
theorem clock_failure_is_not_reported :
    (∀ (L : Libc) (env : Env) (result : CString),
        (get_uuid L env result).outcome ≠ Outcome.returned 0)
      ∧ demo_env_clock_failure.clock1 = none
      ∧ (get_uuid demo_libc demo_env_clock_failure []).outcome = Outcome.returned 1
      ∧ (get_uuid demo_libc demo_env_clock_failure []).samples.map (fun s => s.s1)
          = some "00".toList
      ∧ (get_uuid demo_libc demo_env_clock_failure []).result
          = "1::moc.esnesgub.www03000000007:740321.652010206x000".toList := by
  refine ⟨?_, by decide, by decide, by decide, by decide⟩
  intro L env result
  unfold get_uuid
  by_cases hm : env.malloc = 0
  · simp [hm]
  · simp only [hm, if_false]
    split <;> simp

/-- C7: when the one-byte allocation fails the call makes exactly the outside
calls `gettimeofday`, `malloc`, `exit(1)`: the process ends with status 1
before any later probe, no sample set or composite record is produced and
`*result` is left as it was. When the allocation succeeds, `s2` is the `%p`
text of the returned address (cut to 127 bytes, which leaves an address below
`2 ^ 64` whole) and `free` of that address is the call right after `malloc`
and right before the first `rdtsc`. -/
theorem allocation_failure_is_fatal (L : Libc) (env : Env) (result : CString) :
    (env.malloc = 0 →
        (get_uuid L env result).outcome = Outcome.exited 1
          ∧ (get_uuid L env result).trace
              = [Event.gettimeofday, Event.malloc, Event.exit 1]
          ∧ (get_uuid L env result).samples = none
          ∧ (get_uuid L env result).sall = none
          ∧ (get_uuid L env result).result = result)
      ∧ (env.malloc ≠ 0 →
          (get_uuid L env result).samples.map (fun s => s.s2)
              = some (snprintf 128 (fmt_p env.malloc))
            ∧ (env.malloc < 2 ^ 64 →
                (get_uuid L env result).samples.map (fun s => s.s2)
                  = some ("0x".toList ++ Nat.toDigits 16 env.malloc))
            ∧ ∃ rest, (get_uuid L env result).trace
                = [Event.gettimeofday, Event.malloc, Event.free env.malloc, Event.rdtsc]
                    ++ rest) := by
  constructor
  · intro hm
    unfold get_uuid
    simp [hm]
  · intro hm
    refine ⟨?_, ?_, ?_⟩
    · rw [get_uuid_samples, if_neg hm]
      rfl
    · intro hlt
      rw [get_uuid_samples, if_neg hm]
      simp only [Option.map_some', probe_samples, Option.some.injEq]
      have hp : fmt_p env.malloc = "0x".toList ++ Nat.toDigits 16 env.malloc := by
        simp [fmt_p, hm]
      rw [← hp]
      apply snprintf_of_fits
      have := fmt_p_length_le env.malloc hlt
      omega
    · obtain ⟨rest, h, _⟩ := get_uuid_trace_of_alloc L env result hm
      exact ⟨rest, h⟩

theorem allocation_failure_is_fatal_witness :
    ((get_uuid demo_libc demo_env_alloc_failure "stale".toList).outcome = Outcome.exited 1
      ∧ (get_uuid demo_libc demo_env_alloc_failure "stale".toList).trace
          = [Event.gettimeofday, Event.malloc, Event.exit 1]
      ∧ (get_uuid demo_libc demo_env_alloc_failure "stale".toList).samples = none
      ∧ (get_uuid demo_libc demo_env_alloc_failure "stale".toList).sall = none
      ∧ (get_uuid demo_libc demo_env_alloc_failure "stale".toList).result = "stale".toList)
      ∧ (get_uuid demo_libc demo_env []).samples.map (fun s => s.s2)
          = some ("0x".toList ++ Nat.toDigits 16 demo_env.malloc) :=
  ⟨(allocation_failure_is_fatal demo_libc demo_env_alloc_failure "stale".toList).1 rfl,
   ((allocation_failure_is_fatal demo_libc demo_env []).2 (by decide)).2.1 (by decide)⟩

/-- C10: two calls whose `time(NULL)` readings agree, both with a successful
allocation, pass the same seed to `srand` and store the same text in `s5`,
namely the decimal form of the first `rand()` value for that seed. -/
theorem random_sample_is_function_of_second (L : Libc) (env1 env2 : Env) (r1 r2 : CString)
    (hm1 : env1.malloc ≠ 0) (hm2 : env2.malloc ≠ 0) (ht : env1.time = env2.time) :
    Event.srand (to_unsigned env1.time) ∈ (get_uuid L env1 r1).trace
      ∧ Event.srand (to_unsigned env1.time) ∈ (get_uuid L env2 r2).trace
      ∧ (get_uuid L env1 r1).samples.map (fun s => s.s5)
          = some (snprintf 64 (fmt_d (L.rand (to_unsigned env1.time))))
      ∧ (get_uuid L env2 r2).samples.map (fun s => s.s5)
          = (get_uuid L env1 r1).samples.map (fun s => s.s5) := by
  obtain ⟨rest1, ht1, hs1⟩ := get_uuid_trace_of_alloc L env1 r1 hm1
  obtain ⟨rest2, ht2, hs2⟩ := get_uuid_trace_of_alloc L env2 r2 hm2
  refine ⟨?_, ?_, ?_, ?_⟩
  · rw [ht1]
    exact List.mem_append_right _ hs1
  · rw [ht2, ht]
    exact List.mem_append_right _ hs2
  · rw [get_uuid_samples, if_neg hm1]
    rfl
  · rw [get_uuid_samples L env1, if_neg hm1, get_uuid_samples L env2, if_neg hm2]
    simp only [Option.map_some', probe_samples, ht]

theorem random_sample_is_function_of_second_witness :
    demo_env.clock1 ≠ demo_env_same_second.clock1
      ∧ Event.srand 1336734000 ∈ (get_uuid demo_libc demo_env []).trace
      ∧ Event.srand 1336734000 ∈ (get_uuid demo_libc demo_env_same_second []).trace
      ∧ (get_uuid demo_libc demo_env []).samples.map (fun s => s.s5)
          = some (snprintf 64 (fmt_d (demo_libc.rand 1336734000)))
      ∧ (get_uuid demo_libc demo_env_same_second []).samples.map (fun s => s.s5)
          = (get_uuid demo_libc demo_env []).samples.map (fun s => s.s5) :=
  ⟨by decide,
   random_sample_is_function_of_second demo_libc demo_env demo_env_same_second [] []
    (by decide) (by decide) rfl⟩

theorem static_tag_eq : snprintf 64 static_tag = "www.bugsense.com::1".toList := by
  decide

/-- C8: take a call whose first clock reading has seconds and microseconds in
the range of a 64-bit signed integer, whose allocation succeeds with an address
text of at most 18 bytes, and whose `rand()` value lies in `[0, 2 ^ 31)`; the
jitter text is whatever fits its 64-byte buffer and the entry count is whatever
the `int` counter holds. Then the six buffers total at most 255 bytes, `sall`
is their full concatenation, and `sall` ends with `www.bugsense.com::1`. -/
theorem realistic_samples_fit (L : Libc) (env : Env) (result : CString)
    (hsec : -(2 : Int) ^ 63 ≤ (gettimeofday env.clock1 env.tv1_stack).tv_sec
      ∧ (gettimeofday env.clock1 env.tv1_stack).tv_sec < 2 ^ 63)
    (husec : -(2 : Int) ^ 63 ≤ (gettimeofday env.clock1 env.tv1_stack).tv_usec
      ∧ (gettimeofday env.clock1 env.tv1_stack).tv_usec < 2 ^ 63)
    (hm : env.malloc ≠ 0)
    (hp : (fmt_p env.malloc).length ≤ 18)
    (hr : 0 ≤ L.rand (to_unsigned env.time) ∧ L.rand (to_unsigned env.time) < 2 ^ 31) :
    ∃ s : Samples, (get_uuid L env result).samples = some s
      ∧ (s.s1 ++ s.s2 ++ s.s3 ++ s.s4 ++ s.s5 ++ s.s6).length ≤ 255
      ∧ (get_uuid L env result).sall = some (s.s1 ++ s.s2 ++ s.s3 ++ s.s4 ++ s.s5 ++ s.s6)
      ∧ s.s6 = "www.bugsense.com::1".toList
      ∧ (get_uuid L env result).sall
          = some (s.s1 ++ s.s2 ++ s.s3 ++ s.s4 ++ s.s5 ++ "www.bugsense.com::1".toList) := by
  have hsam : (get_uuid L env result).samples = some (probe_samples L env) := by
    rw [get_uuid_samples, if_neg hm]
  have hpow63 : (2 : Int) ^ 63 < 10 ^ 19 := by norm_num
  have hpow31 : (2 : Int) ^ 31 < 10 ^ 10 := by norm_num
  have l1 : (probe_samples L env).s1.length ≤ 40 := by
    have a := fmt_d_length_le (gettimeofday env.clock1 env.tv1_stack).tv_sec 19 (by decide)
      (by omega) (by omega)
    have b := fmt_d_length_le (gettimeofday env.clock1 env.tv1_stack).tv_usec 19 (by decide)
      (by omega) (by omega)
    have c := snprintf_length_le_self 64
      (fmt_d (gettimeofday env.clock1 env.tv1_stack).tv_sec
        ++ fmt_d (gettimeofday env.clock1 env.tv1_stack).tv_usec)
    simp only [List.length_append] at c
    simp only [probe_samples]
    omega
  have l2 : (probe_samples L env).s2.length ≤ 18 :=
    le_trans (snprintf_length_le_self 128 (fmt_p env.malloc)) hp
  have l3 : (probe_samples L env).s3.length ≤ 63 := snprintf_length_le 64 _
  have l4 : (probe_samples L env).s4.length ≤ 11 := by
    have hcount : -(2 : Int) ^ 31 ≤ (match env.dir with
          | some stream => readdir_loop stream 0
          | none => 2)
        ∧ (match env.dir with
          | some stream => readdir_loop stream 0
          | none => 2) < (2 : Int) ^ 31 := by
      cases env.dir with
      | none => simp
      | some stream => exact readdir_loop_range stream 0 (by norm_num)
    have a := fmt_d_length_le (match env.dir with
          | some stream => readdir_loop stream 0
          | none => 2) 10 (by decide) (by omega) (by omega)
    exact le_trans (snprintf_length_le_self 64 _) a
  have l5 : (probe_samples L env).s5.length ≤ 11 := by
    have a := fmt_d_length_le (L.rand (to_unsigned env.time)) 10 (by decide)
      (by omega) (by omega)
    exact le_trans (snprintf_length_le_self 64 _) a
  have e6 : (probe_samples L env).s6 = "www.bugsense.com::1".toList := static_tag_eq
  have l6 : (probe_samples L env).s6.length = 19 := by
    rw [e6]
    decide
  have htotal : ((probe_samples L env).s1 ++ (probe_samples L env).s2
      ++ (probe_samples L env).s3 ++ (probe_samples L env).s4
      ++ (probe_samples L env).s5 ++ (probe_samples L env).s6).length ≤ 255 := by
    simp only [List.length_append]
    omega
  have hsall : (get_uuid L env result).sall
      = some ((probe_samples L env).s1 ++ (probe_samples L env).s2
          ++ (probe_samples L env).s3 ++ (probe_samples L env).s4
          ++ (probe_samples L env).s5 ++ (probe_samples L env).s6) := by
    rw [get_uuid_sall, hsam]
    simp only [Option.map_some', combine, Option.some.injEq]
    exact snprintf_of_fits 256 _ htotal
  refine ⟨probe_samples L env, hsam, htotal, hsall, e6, ?_⟩
  rw [hsall, e6]

theorem realistic_samples_fit_witness :
    ∃ s : Samples, (get_uuid demo_libc demo_env []).samples = some s
      ∧ (s.s1 ++ s.s2 ++ s.s3 ++ s.s4 ++ s.s5 ++ s.s6).length ≤ 255
      ∧ (get_uuid demo_libc demo_env []).sall
          = some (s.s1 ++ s.s2 ++ s.s3 ++ s.s4 ++ s.s5 ++ s.s6)
      ∧ s.s6 = "www.bugsense.com::1".toList
      ∧ (get_uuid demo_libc demo_env []).sall
          = some (s.s1 ++ s.s2 ++ s.s3 ++ s.s4 ++ s.s5 ++ "www.bugsense.com::1".toList) :=
  realistic_samples_fit demo_libc demo_env [] (by decide) (by decide) (by decide)
    (by decide) (by decide)

end EntropyGUID
